import Mathlib

/-!
Verification development for the bytecode execution core of cxio/suite.

The Go sources are shallowly embedded: pure functions become Lean
functions, the panic-based control protocol becomes an explicit fault
value, and the mutable executor state (stacks, args region, scope,
globals, counters, switch context) is passed explicitly.  Machine
integers are modelled by Nat/Int; byte strings by List Nat; the Go
float64 of the expression evaluator by Rat (the executed paths of the
theorems below perform no rounding).  Go struct assignment copies a
struct value, so the embedding of instCall mirrors that the cursor
advance is applied to a local copy of the Script struct and lost.
-/

namespace Suite

/-! ## Runtime values (tagged variant, instor.go basic types)

The Go `any` runtime values are modelled by one inductive.  Go keeps
Byte (uint8), Rune (int32), Int (int64) and Float (float64) as distinct
dynamic types, which matters for type switches, so they are distinct
constructors here.  `list` models `[]any`, `bytes` models `Bytes`.
-/

inductive Val where
  | nil
  | bool (b : Bool)
  | byte (b : Nat)
  | rune (r : Int)
  | int (n : Int)
  | float (q : Rat)
  | str (s : String)
  | bytes (bs : List Nat)
  | list (vs : List Val)

/-- Default value used only for unreachable projections. -/
def Val.default0 : Val := .nil

instance : Inhabited Val := ⟨Val.default0⟩

/-! ## Faults

Go panics carry typed sentinels (Leave, cease) or error values.  The
whole taxonomy is collected in one inductive; envelopes pattern-match
on it exactly as the recover blocks do. -/

inductive Fault where
  | leave (kind : Nat) (data : Val) -- Leave{Kind, Data}; kind 0 = RETURN, 1 = EXIT
  | cease (k : Nat)                 -- cease; 0 = CONTINUE, 1 = BREAK
  | stackOver                       -- stack.push beyond StackMax
  | stackUnder                      -- stack.pop / stack.pops on short stack
  | scopeOver                       -- scope.add beyond ScopeMax
  | gotosOver                       -- countx.IncrGoto beyond GotoMax
  | jumpsOver                       -- countx.IncrJump beyond JumpMax
  | argsAmount                      -- Arguments: args region size mismatch
  | nilDeref                        -- dereference of a nil pointer (for example Actuator.Ifs)
  | indexRange                      -- Go index out of range (cases[0] on empty slice, vs[0] on empty)
  | typeAssert                      -- failed Go type assertion
  | accessStop                      -- accessPanic placeholder handler reached
  | neverToHere                     -- ErrToHere
  | exprTooMany                     -- expression step returned more than one value
  | exprBadType                     -- expression step returned a non numeric value
  | exprNoOperand                   -- binary or unary operator missing its operand
  | exprBadEnd                      -- Calculor.Calc: code after parsing is not ExprEnd
  | exprOver                        -- parsePrimary called after the expression ended
  | uncomparable                    -- interface == on two values of the same uncomparable (slice) dynamic type
  | unhashableKey                   -- map access with a key of an unhashable (slice) dynamic type
  | unmodelled                      -- opcode whose handler is outside this embedding
  | fuelOut                         -- artefact of the fuel based embedding only

/-- Go interface equality as used by switchX.CasePass (target == v).
Two interface values with identical comparable dynamic types compare
by value; values of differing dynamic types are unequal without a
fault; and when both operands carry the same UNCOMPARABLE dynamic type
(a slice: Bytes or any other slice variant) the comparison panics at
run time with the comparing-uncomparable-type error, surfaced here as
a fault. -/
def valEqGo : Val → Val → Except Fault Bool
  | .nil, .nil => .ok true
  | .bool a, .bool b => .ok (a == b)
  | .byte a, .byte b => .ok (a == b)
  | .rune a, .rune b => .ok (a == b)
  | .int a, .int b => .ok (a == b)
  | .float a, .float b => .ok (a == b)
  | .str a, .str b => .ok (a == b)
  | .bytes _, .bytes _ => .error .uncomparable
  | .list _, .list _ => .error .uncomparable
  | _, _ => .ok false

/-! ## ibase limits and stack / scope / args / counter primitives
(script/ibase/base.go) -/

def ScopeMax : Nat := 128
def StackMax : Nat := 256
def GotoMax : Nat := 3
def JumpMax : Nat := 9

/-- stack.push: appends, panics when the resulting depth would exceed
StackMax.  The stack is a bottom-first list as in the Go slice. -/
def stackPush (s vs : List Val) : Except Fault (List Val) :=
  if s.length + vs.length > StackMax then .error .stackOver
  else .ok (s ++ vs)

/-- stack.pops(n): removes the top n members, returning them in
bottom-first order, panicking when fewer than n are present.
Result: (picked members, remaining stack). -/
def stackPops (s : List Val) (n : Nat) : Except Fault (List Val × List Val) :=
  if s.length < n then .error .stackUnder
  else .ok (s.drop (s.length - n), s.take (s.length - n))

/-- stack.pop: removes the single top member. -/
def stackPop (s : List Val) : Except Fault (Val × List Val) :=
  match s.getLast? with
  | none => .error .stackUnder
  | some v => .ok (v, s.take (s.length - 1))

/-- scope.add: appends, panics when the resulting size would exceed
ScopeMax. -/
def scopeAdd (s vs : List Val) : Except Fault (List Val) :=
  if s.length + vs.length > ScopeMax then .error .scopeOver
  else .ok (s ++ vs)

/-- args.take: drains the args region, returning its whole content. -/
def argsTake (a : List Val) : List Val × List Val := (a, [])

/-- countx.IncrGoto: panics when the counter already reached GotoMax,
otherwise increments. -/
def incrGoto (g : Nat) : Except Fault Nat :=
  if g ≥ GotoMax then .error .gotosOver else .ok (g + 1)

/-- countx.IncrJump: panics when the counter already reached JumpMax,
otherwise increments. -/
def incrJump (j : Nat) : Except Fault Nat :=
  if j ≥ JumpMax then .error .jumpsOver else .ok (j + 1)

/-! ## Actuator.Arguments (script/ibase/base.go, lines 501-518)

Inputs: declared argument count n (Go int, -1 for variadic), the
FromStack flag, the args region and the data stack.  Output on
success: (argument values, new args region, new stack). -/

def argumentsGo (n : Int) (fromStack : Bool) (args stack : List Val) :
    Except Fault (List Val × List Val × List Val) :=
  if n = 0 then .ok ([], args, stack)
  else if n < 0 then .ok ((argsTake args).1, (argsTake args).2, stack)
  else if fromStack || args.length = 0 then
    match stackPops stack n.toNat with
    | .error f => .error f
    | .ok (vs, st) => .ok (vs, args, st)
  else if args.length ≠ n.toNat then .error .argsAmount
  else .ok ((argsTake args).1, (argsTake args).2, stack)

/-- Argument-acquisition rule exactly as the specification states it
(claim C1); written independently of argumentsGo for comparison.
Popping n values from a stack shorter than n is impossible and fatal. -/
def argumentsRule (n : Int) (fromStack : Bool) (args stack : List Val) :
    Except Fault (List Val × List Val × List Val) :=
  if n = 0 then
    -- n = 0 yields no arguments
    .ok ([], args, stack)
  else if n < 0 then
    -- n < 0 takes and empties the whole args region
    .ok (args, [], stack)
  else if fromStack || args.length = 0 then
    -- from-stack flag set or args region empty: pop exactly n from the stack
    if stack.length < n.toNat then .error .stackUnder
    else .ok (stack.drop (stack.length - n.toNat), args,
              stack.take (stack.length - n.toNat))
  else if args.length = n.toNat then
    -- otherwise the args region size must equal n; take and empty it
    .ok (args, [], stack)
  else
    -- any other size is the fatal argument-count-mismatch error
    .error .argsAmount

/-! ## bytes.Compare and the WITHIN helpers -/

/-- Go bytes.Compare: lexicographic comparison returning -1, 0 or 1. -/
def bytesCompare : List Nat → List Nat → Int
  | [], [] => 0
  | [], _ :: _ => -1
  | _ :: _, [] => 1
  | a :: as, b :: bs =>
    if a < b then -1 else if b < a then 1 else bytesCompare as bs

theorem bytesCompare_antisymm (u v : List Nat) :
    bytesCompare v u = -bytesCompare u v := by
  induction u generalizing v with
  | nil => cases v <;> simp [bytesCompare]
  | cons a as ih =>
    cases v with
    | nil => simp [bytesCompare]
    | cons b bs =>
      by_cases h1 : a < b
      · have h2 : ¬ b < a := by omega
        simp [bytesCompare, h1, h2]
      · by_cases h2 : b < a
        · simp [bytesCompare, h1, h2]
        · simp [bytesCompare, h1, h2, ih bs]

/-- within (generic helper): a ≤ x < b, used by the Int, Float, Byte,
Rune and String branches of the WITHIN instruction. -/
def withinOrd {α : Type} [LinearOrder α] (x a b : α) : Bool :=
  decide (a ≤ x) && decide (x < b)

/-- C1: argument acquisition follows exactly the stated rule.  With
declared arg-count n and args-region size a: n = 0 yields no
arguments; n < 0 takes and empties the whole args region; if the
from-stack flag is set or a = 0, exactly n values are popped from the
data stack; otherwise a must equal n and the args region is taken and
emptied, and any other a is the fatal argument-count-mismatch error.
The source function Actuator.Arguments (argumentsGo) agrees with the
rule as literally stated (argumentsRule) on every input. -/
theorem arguments_follow_spec_rule (n : Int) (fromStack : Bool)
    (args stack : List Val) :
    argumentsGo n fromStack args stack = argumentsRule n fromStack args stack := by
  simp only [argumentsGo, argumentsRule, argsTake, stackPops]
  split_ifs <;> first | rfl | omega

/-- C2: every resource limit is a hard fatal bound.  A push that would
make the data stack deeper than StackMax = 256 is fatal, so the 257th
push fails; a scope add beyond ScopeMax = 128 is fatal; IncrGoto is
fatal exactly at counter GotoMax = 3 (the 4th GOTO) and IncrJump at
JumpMax = 9 (the 10th JUMP); and each successful primitive keeps the
stack depth at most 256, the scope size at most 128 and the counters
at most 3 and 9, which gives the instruction-boundary invariant since
these primitives are the only ways the quantities grow. -/
theorem resource_limits_hard :
    (∀ s vs : List Val,
      (∃ s', stackPush s vs = .ok s') ↔ s.length + vs.length ≤ StackMax) ∧
    (∀ (s : List Val) (v : Val),
      s.length = StackMax → stackPush s [v] = .error .stackOver) ∧
    (∀ s vs s' : List Val, stackPush s vs = .ok s' →
      s'.length = s.length + vs.length ∧ s'.length ≤ StackMax) ∧
    (∀ sc vs : List Val,
      (∃ sc', scopeAdd sc vs = .ok sc') ↔ sc.length + vs.length ≤ ScopeMax) ∧
    (∀ (sc : List Val) (v : Val),
      sc.length = ScopeMax → scopeAdd sc [v] = .error .scopeOver) ∧
    (∀ sc vs sc' : List Val, scopeAdd sc vs = .ok sc' → sc'.length ≤ ScopeMax) ∧
    (∀ g, incrGoto g = if g ≥ GotoMax then .error .gotosOver else .ok (g + 1)) ∧
    (∀ g g', incrGoto g = .ok g' → g' ≤ GotoMax) ∧
    (∀ j, incrJump j = if j ≥ JumpMax then .error .jumpsOver else .ok (j + 1)) ∧
    (∀ j j', incrJump j = .ok j' → j' ≤ JumpMax) := by
  refine ⟨?_, ?_, ?_, ?_, ?_, ?_, fun g => rfl, ?_, fun j => rfl, ?_⟩
  · intro s vs
    simp only [stackPush, StackMax]
    split_ifs with h
    · constructor
      · rintro ⟨_, hx⟩; cases hx
      · intro hx; omega
    · exact ⟨fun _ => by omega, fun _ => ⟨s ++ vs, rfl⟩⟩
  · intro s v h
    simp [stackPush, StackMax, h]
  · intro s vs s' h
    simp only [stackPush, StackMax] at h
    split_ifs at h with hh
    injection h with h2
    subst h2
    refine ⟨List.length_append .., ?_⟩
    rw [List.length_append]
    unfold StackMax
    omega
  · intro sc vs
    simp only [scopeAdd, ScopeMax]
    split_ifs with h
    · constructor
      · rintro ⟨_, hx⟩; cases hx
      · intro hx; omega
    · exact ⟨fun _ => by omega, fun _ => ⟨sc ++ vs, rfl⟩⟩
  · intro sc v h
    simp [scopeAdd, ScopeMax, h]
  · intro sc vs sc' h
    simp only [scopeAdd, ScopeMax] at h
    split_ifs at h with hh
    injection h with h2
    subst h2
    rw [List.length_append]
    unfold ScopeMax
    omega
  · intro g g' h
    simp only [incrGoto, GotoMax] at h
    split_ifs at h with hh
    injection h with h2
    subst h2
    unfold GotoMax
    omega
  · intro j j' h
    simp only [incrJump, JumpMax] at h
    split_ifs at h with hh
    injection h with h2
    subst h2
    unfold JumpMax
    omega

/-- Witness for C2 at concrete inputs: from a full stack the 257th push
fails, a full scope rejects one more member, the 4th GOTO and the 10th
JUMP are fatal. -/
theorem resource_limits_hard_witness :
    stackPush (List.replicate StackMax Val.nil) [Val.nil] = .error .stackOver ∧
    scopeAdd (List.replicate ScopeMax Val.nil) [Val.nil] = .error .scopeOver ∧
    incrGoto 3 = .error .gotosOver ∧ incrJump 9 = .error .jumpsOver := by
  have h := resource_limits_hard
  refine ⟨h.2.1 _ _ (by simp), h.2.2.2.2.1 _ _ (by simp), ?_, ?_⟩
  · rw [h.2.2.2.2.2.2.1 3]; rfl
  · rw [h.2.2.2.2.2.2.2.2.1 9]; rfl

/-! ## Script objects (script/instor, extsz.go)

A Script carries the immutable source bytes, the current offset and
the NULL position.  It is a struct VALUE inside the Actuator: Go
assignment of the struct copies it, which matters for instCall below. -/

structure Script where
  source : List Nat
  offset : Nat
  nullpos : Nat

/-- Script.End: the offset reached or passed the end of the source. -/
def Script.isEnd (s : Script) : Bool := s.source.length ≤ s.offset

/-- Script.Code: the opcode byte at the current offset (callers check
End first; out of range is mapped to 0 and never exercised). -/
def Script.codeN (s : Script) : Nat := (s.source.drop s.offset).headD 0

/-- Script.Bytes: the suffix from the current offset. -/
def Script.bytes (s : Script) : List Nat := s.source.drop s.offset

/-! ## Instruction decoding (instor.Get) for the opcodes the claims
exercise.  Unlisted opcodes take the default branch of instor.Get:
a one-byte instruction with no parsed arguments and no data. -/

/-- Parsed instruction data (the Insted.Data field of type any). -/
inductive IData where
  | vnone
  | vint (v : Int)
  | vbytes (bs : List Nat)

/-- instor.Insted: parsed instruction information. -/
structure Insted where
  code : Nat
  args : List Int
  data : IData
  size : Nat

/-- binary.Uvarint accumulator loop. -/
def uvarintAux : List Nat → Nat → Nat → Nat → Nat × Nat
  | [], _, _, _ => (0, 0)
  | b :: rest, shift, acc, cnt =>
    if b < 128 then (acc + b * 2 ^ shift, cnt + 1)
    else uvarintAux rest (shift + 7) (acc + b % 128 * 2 ^ shift) (cnt + 1)

/-- binary.Uvarint: decode an unsigned varint, returning the value and
the number of bytes consumed ((0, 0) on a truncated buffer). -/
def uvarintGo (bs : List Nat) : Nat × Nat := uvarintAux bs 0 0 0

/-- instor.Get restricted to the opcodes exercised by the claims:
Uint8 (4) stores its byte as Int data; IF (57), ELSE (58), CASE (60),
DEFAULT (61), EACH (62), Expr (80), MAP (44), FILTER (45) parse one
length byte plus that many data bytes (parseArg1Code); SWITCH (59) and
BLOCK (66) parse an unsigned-varint length plus data (parseArgXCode);
VAR (133) and SETVAR (134) parse one aux byte and no data (parseArg1);
every other opcode uses the default of instor.Get: size one, no args,
no data (correct for TRUE, FALSE, PUSH, EXIT, RETURN, the operator
codes 81-84 and WITHIN, which are exactly the remaining codes the
claims touch). -/
def instorGet (bs : List Nat) : Insted :=
  let c := bs.headD 0
  if c = 4 then
    { code := c, args := [], data := .vint (Int.ofNat (bs.getD 1 0)), size := 2 }
  else if c = 44 ∨ c = 45 ∨ c = 57 ∨ c = 58 ∨ c = 60 ∨ c = 61 ∨ c = 62 ∨ c = 80 then
    let n := bs.getD 1 0
    { code := c, args := [Int.ofNat n], data := .vbytes ((bs.drop 2).take n),
      size := 2 + n }
  else if c = 59 ∨ c = 66 then
    let p := uvarintGo (bs.drop 1)
    { code := c, args := [Int.ofNat p.1],
      data := .vbytes ((bs.drop (1 + p.2)).take p.1), size := 1 + p.2 + p.1 }
  else if c = 133 ∨ c = 134 then
    { code := c, args := [Int.ofNat (bs.getD 1 0)], data := .vnone, size := 2 }
  else
    { code := c, args := [], data := .vnone, size := 1 }

/-- Declared argument counts from the __InstSet table for the opcodes
exercised by the claims (PUSH and EXIT are variadic -1; RETURN, IF and
SETVAR take 1; SWITCH takes 2; WITHIN takes 3; the rest take 0). -/
def argnOf (c : Nat) : Int :=
  if c = 26 then -1
  else if c = 55 then -1
  else if c = 56 then 1
  else if c = 57 then 1
  else if c = 59 then 2
  else if c = 111 then 3
  else if c = 134 then 1
  else 0

/-! ## Executor state (ibase.Actuator)

Fields not touched by any claim path (Ver, ID, Envs, the input and
output buffers, the BUFDUMP channel, loopVar, xfrom) are omitted; the
fields below are exactly the ones the executed handlers read or write.
Shared regions (spaces, countx, global, the switch through cell, the
inExpr cell) are copied into child records by the child constructors
and merged back by the callers, mirroring the pointer sharing of the
source. -/

structure SwitchX where
  target : Val
  cases : List Val
  through : Option Bool -- shared cell; none models a nil pointer

structure Actuator where
  script : Script := ⟨[], 0, 0⟩
  backTo : Nat := 0         -- state.BackTo (0 stack, 1 args, 2 scope)
  fromStack : Bool := false -- state.FromStack
  changed : Bool := false   -- state.changed
  ifs : Option Bool := none -- Ifs *bool; none models the nil pointer
  stack : List Val := []
  argsR : List Val := []
  scope : List Val := []
  global : List (Nat × Val) := []
  gotos : Nat := 0
  jumps : Nat := 0
  switchx : Option SwitchX := none
  inExpr : Int := 0

instance : Inhabited Actuator := ⟨{}⟩

/-- state.Revert: roll BackTo and FromStack back to the defaults when
the changed flag was raised. -/
def Actuator.revert (a : Actuator) : Actuator :=
  if a.changed then { a with backTo := 0, fromStack := false, changed := false }
  else a

/-- Actuator.GlobalValue: Go map read, zero value (nil) when absent. -/
def globalValue (g : List (Nat × Val)) (i : Nat) : Val :=
  match g.find? (fun p => p.1 == i) with
  | some p => p.2
  | none => .nil

/-- Actuator.GlobalSet: Go map write. -/
def globalSet (g : List (Nat × Val)) (i : Nat) (v : Val) : List (Nat × Val) :=
  (i, v) :: g

/-- Actuator.BlockNew: child for IF, ELSE, BLOCK bodies; shares spaces,
counters and globals, resets the script, the state flags, the scope,
the if-state and the switch context. -/
def blockNew (a : Actuator) (code : List Nat) : Actuator :=
  { script := ⟨code, 0, 0⟩, stack := a.stack, argsR := a.argsR,
    global := a.global, gotos := a.gotos, jumps := a.jumps }

/-- Actuator.SwitchNew: like BlockNew plus a fresh switch context with
an allocated through cell. -/
def switchNew (a : Actuator) (code : List Nat) (target : Val)
    (cases : List Val) : Actuator :=
  { blockNew a code with switchx := some ⟨target, cases, some false⟩ }

/-- Actuator.CaseNew (switchX.caseIn): like BlockNew with a switch
context whose target and cases are zeroed and whose through cell is
the one shared with the enclosing switch. -/
def caseNew (a : Actuator) (code : List Nat) (through : Option Bool) : Actuator :=
  { blockNew a code with switchx := some ⟨.nil, [], through⟩ }

/-- Actuator.ExprNew: child for expression fragments; shares spaces,
globals and the inExpr cell; the counters are nil in the source and
never touched on the executed paths. -/
def exprNew (a : Actuator) (code : List Nat) : Actuator :=
  { script := ⟨code, 0, 0⟩, stack := a.stack, argsR := a.argsR,
    global := a.global, inExpr := a.inExpr }

/-- Write the shared regions (spaces, globals, counters) mutated by a
child run back into the parent view. -/
def mergeShared (a child : Actuator) : Actuator :=
  { a with stack := child.stack, argsR := child.argsR,
           global := child.global, gotos := child.gotos, jumps := child.jumps }

/-- Write back the regions an Expr child shares (spaces, globals and
the inExpr cell). -/
def mergeExpr (a child : Actuator) : Actuator :=
  { a with stack := child.stack, argsR := child.argsR,
           global := child.global, inExpr := child.inExpr }

/-- Actuator.ReturnPut: route a non-empty handler return to the data
stack, the args region or the scope according to the captured BackTo. -/
def returnPut (a : Actuator) (dst : Nat) (vs : List Val) : Except Fault Actuator :=
  if vs.isEmpty then .ok a
  else if dst = 0 then
    match stackPush a.stack vs with
    | .error f => .error f
    | .ok st => .ok { a with stack := st }
  else if dst = 1 then .ok { a with argsR := a.argsR ++ vs }
  else if dst = 2 then
    match scopeAdd a.scope vs with
    | .error f => .error f
    | .ok sc => .ok { a with scope := sc }
  else .error .neverToHere

/-! ## Expression evaluator (inst/expr, eval.go) -/

/-- Expression tree built by the precedence-climbing parsing functions
(value, unary, binary of eval.go). -/
inductive ExprT where
  | val (q : Rat)
  | unary (op : Int) (x : ExprT)
  | binary (op : Int) (x y : ExprT)

instance : Inhabited ExprT := ⟨.val 0⟩

/-- precedence: codes 81 (Mul) and 82 (Div) weigh 2, codes 83 (Add)
and 84 (Sub) weigh 1, everything else 0. -/
def precedenceGo (op : Int) : Nat :=
  if op = 81 ∨ op = 82 then 2
  else if op = 83 ∨ op = 84 then 1
  else 0

/-- Eval of the expression tree.  Go computes in float64; the executed
paths of the theorems below only involve values representable exactly,
so Rat arithmetic coincides (division by zero is never exercised). -/
def evalE : ExprT → Except Fault Rat
  | .val q => .ok q
  | .unary op x =>
    match evalE x with
    | .error f => .error f
    | .ok v =>
      if op = 83 then .ok v
      else if op = 84 then .ok (-v)
      else .error .neverToHere
  | .binary op x y =>
    match evalE x with
    | .error f => .error f
    | .ok va =>
      match evalE y with
      | .error f => .error f
      | .ok vb =>
        if op = 81 then .ok (va * vb)
        else if op = 82 then .ok (va / vb)
        else if op = 83 then .ok (va + vb)
        else if op = 84 then .ok (va - vb)
        else .error .neverToHere

/-- Calculor state: the driven Expr-child actuator, the current code
(ExprEnd is -1) and the current converted value. -/
structure CalcSt where
  a : Actuator
  n : Int
  v : Rat

instance : Inhabited CalcSt := ⟨⟨default, 0, 0⟩⟩

/-- Conversion of a single instruction return value inside Calculor.next:
float64, byte, rune, int64 and float32 are accepted, anything else is
the fatal invalid-type error. -/
def exprValOf : Val → Except Fault Rat
  | .float q => .ok q
  | .byte b => .ok (b : Rat)
  | .rune r => .ok (r : Rat)
  | .int i => .ok (i : Rat)
  | _ => .error .exprBadType

/-- The CASE tail: if the shared fallthrough cell is raised, return
normally, otherwise raise Break (the source raises Break here whether
or not the body ran). -/
def caseAfter (a : Actuator) (thr : Option Bool) :
    Actuator × Except Fault (List Val) :=
  match thr with
  | none => (a, .error .nilDeref)
  | some true => (a, .ok [])
  | some false => (a, .error (.cease 1))

/-! ## The combined dispatcher (eval.go: codeRun, instCall, the handler
table, and the expression machinery Calculor / parseBinary / parseUnary
/ parsePrimary).

The mutually recursive Go functions are combined into one function
structurally recursive on a fuel parameter so that concrete runs reduce
inside the kernel; the Frame constructors name the source functions.
A fault is returned together with the executor state at the moment of
the panic, because the shared regions keep their mutations when an
envelope recovers. -/

inductive Frame where
  | run (a : Actuator)                                      -- codeRun
  | icall (a : Actuator)                                    -- instCall
  | iexec (a : Actuator) (ins : Insted) (vs : List Val)     -- handler dispatch
  | cnext (c : CalcSt)                                      -- Calculor.next
  | pbin (c : CalcSt) (prec1 : Nat)                         -- parseBinary
  | pbinFor (c : CalcSt) (prec prec1 : Nat) (lhs : ExprT)   -- its outer for loop
  | pbinWhile (c : CalcSt) (prec prec1 : Nat) (lhs : ExprT) -- its inner while loop
  | puna (c : CalcSt)                                       -- parseUnary
  | pprim (c : CalcSt)                                      -- parsePrimary
  | calcRun (a : Actuator)                                  -- Calculor.Calc

inductive Out where
  | orun (a : Actuator) (f : Option Fault)
  | ovals (a : Actuator) (r : Except Fault (List Val))
  | ocn (c : CalcSt) (r : Except Fault Bool)
  | oexp (c : CalcSt) (r : Except Fault ExprT)
  | ocalc (a : Actuator) (r : Except Fault Rat)

def Out.toRun : Out → Actuator × Option Fault
  | .orun a f => (a, f)
  | _ => (default, some .neverToHere)

def Out.toVals : Out → Actuator × Except Fault (List Val)
  | .ovals a r => (a, r)
  | _ => (default, .error .neverToHere)

def Out.toCn : Out → CalcSt × Except Fault Bool
  | .ocn c r => (c, r)
  | _ => (default, .error .neverToHere)

def Out.toExp : Out → CalcSt × Except Fault ExprT
  | .oexp c r => (c, r)
  | _ => (default, .error .neverToHere)

def Out.toCalc : Out → Actuator × Except Fault Rat
  | .ocalc a r => (a, r)
  | _ => (default, .error .neverToHere)

def interp : Nat → Frame → Out
  | 0, fr =>
    match fr with
    | .run a => .orun a (some .fuelOut)
    | .icall a => .ovals a (.error .fuelOut)
    | .iexec a _ _ => .ovals a (.error .fuelOut)
    | .cnext c => .ocn c (.error .fuelOut)
    | .pbin c _ => .oexp c (.error .fuelOut)
    | .pbinFor c _ _ _ => .oexp c (.error .fuelOut)
    | .pbinWhile c _ _ _ => .oexp c (.error .fuelOut)
    | .puna c => .oexp c (.error .fuelOut)
    | .pprim c => .oexp c (.error .fuelOut)
    | .calcRun a => .ocalc a (.error .fuelOut)
  | fuel + 1, fr =>
    match fr with
    | .run a =>
      -- codeRun: loop while the script has not ended; the BackTo flag is
      -- captured before the call and routes the returned values.
      if a.script.isEnd then .orun a none
      else
        let x := a.backTo
        match (interp fuel (.icall a)).toVals with
        | (a1, .error f) => .orun a1 (some f)
        | (a1, .ok vs) =>
          match returnPut a1 x vs with
          | .error f => .orun a1 (some f)
          | .ok a2 => interp fuel (.run a2)
    | .icall a =>
      -- instCall: s := a.Script copies the Script struct by value; the
      -- instruction is decoded from the copy and s.Next(ins.Size) then
      -- advances only that local copy, so a.script stays unchanged here,
      -- exactly as in the source.
      let s := a.script
      let ins := instorGet s.bytes
      let n := argnOf ins.code
      let s2 := { s with offset := s.offset + ins.size }
      let _ := s2.offset -- the advanced copy is dropped
      match argumentsGo n a.fromStack a.argsR a.stack with
      | .error f => .ovals a (.error f)
      | .ok (vs, args1, stack1) =>
        interp fuel (.iexec { a with argsR := args1, stack := stack1 } ins vs)
    | .iexec a ins vs =>
      let c := ins.code
      if c = 1 then
        -- TRUE
        .ovals a.revert (.ok [.bool true])
      else if c = 2 then
        -- FALSE
        .ovals a.revert (.ok [.bool false])
      else if c = 4 then
        -- Uint8 through the shared value handler _Int
        match ins.data with
        | .vint v => .ovals a.revert (.ok [.int v])
        | _ => .ovals a.revert (.error .typeAssert)
      else if c = 26 then
        -- PUSH
        let a := a.revert
        if vs.isEmpty then .ovals a (.ok [])
        else
          match stackPush a.stack vs with
          | .error f => .ovals a (.error f)
          | .ok st => .ovals { a with stack := st } (.ok [])
      else if c = 55 then
        -- EXIT: one argument raises Leave(EXIT, v); several raise
        -- Leave(EXIT, slice); none returns normally.
        let a := a.revert
        match vs with
        | [] => .ovals a (.ok [])
        | [v] => .ovals a (.error (.leave 1 v))
        | l => .ovals a (.error (.leave 1 (.list l)))
      else if c = 56 then
        -- RETURN raises Leave(RETURN, vs[0])
        let a := a.revert
        match vs with
        | v :: _ => .ovals a (.error (.leave 0 v))
        | [] => .ovals a (.error .indexRange)
      else if c = 57 then
        -- IF: stores the boolean argument through the Ifs pointer, then
        -- runs the body in a Block child when true.  The Ifs pointer is
        -- never allocated by any constructor, so the store dereferences
        -- nil whenever ifs is none.
        let a := a.revert
        match vs with
        | v :: _ =>
          match v with
          | .bool b =>
            match a.ifs with
            | none => .ovals a (.error .nilDeref)
            | some _ =>
              let a := { a with ifs := some b }
              if b then
                match ins.data with
                | .vbytes code =>
                  match (interp fuel (.run (blockNew a code))).toRun with
                  | (ch, none) => .ovals (mergeShared a ch) (.ok [])
                  | (ch, some f) => .ovals (mergeShared a ch) (.error f)
                | _ => .ovals a (.error .typeAssert)
              else .ovals a (.ok [])
          | _ => .ovals a (.error .typeAssert)
        | [] => .ovals a (.error .indexRange)
      else if c = 58 then
        -- ELSE: reads the Ifs pointer (nil dereference when unset), runs
        -- the body when false, then clears the pointer.
        let a := a.revert
        match a.ifs with
        | none => .ovals a (.error .nilDeref)
        | some b =>
          if !b then
            match ins.data with
            | .vbytes code =>
              match (interp fuel (.run (blockNew a code))).toRun with
              | (ch, none) => .ovals { mergeShared a ch with ifs := none } (.ok [])
              | (ch, some f) => .ovals (mergeShared a ch) (.error f)
            | _ => .ovals a (.error .typeAssert)
          else .ovals { a with ifs := none } (.ok [])
      else if c = 59 then
        -- SWITCH: installs a fresh switch context and runs the body via
        -- the execPart envelope, which swallows Break and Continue,
        -- re-raises Exit and forbids Return.
        let a := a.revert
        match vs with
        | [t, cs] =>
          match cs with
          | .list csl =>
            match ins.data with
            | .vbytes code =>
              match (interp fuel (.run (switchNew a code t csl))).toRun with
              | (ch, none) => .ovals (mergeShared a ch) (.ok [])
              | (ch, some (.cease _)) => .ovals (mergeShared a ch) (.ok [])
              | (ch, some (.leave k v)) =>
                if k = 1 then .ovals (mergeShared a ch) (.error (.leave k v))
                else .ovals (mergeShared a ch) (.error .neverToHere)
              | (ch, some f) => .ovals (mergeShared a ch) (.error f)
            | _ => .ovals a (.error .typeAssert)
          | _ => .ovals a (.error .typeAssert)
        | _ => .ovals a (.error .indexRange)
      else if c = 60 then
        -- CASE: CasePass consumes the next case value and compares it to
        -- the target; on a match or a pending fallthrough the body runs
        -- in a Case child; afterwards Break is raised unless the shared
        -- fallthrough cell is set - also when the body did not run.
        let a := a.revert
        match a.switchx with
        | none => .ovals a (.error .nilDeref)
        | some sw =>
          match sw.cases with
          | [] => .ovals a (.error .indexRange)
          | cv :: rest =>
            let sw1 : SwitchX := ⟨sw.target, rest, sw.through⟩
            let a := { a with switchx := some sw1 }
            let condR : Except Fault Bool :=
              match valEqGo cv sw1.target with
              | .error f => .error f
              | .ok true => .ok true
              | .ok false =>
                match sw1.through with
                | none => .error .nilDeref
                | some th => .ok th
            match condR with
            | .error f => .ovals a (.error f)
            | .ok cond =>
              if cond then
                match sw1.through with
                | none => .ovals a (.error .nilDeref)
                | some _ =>
                  let sw2 : SwitchX := ⟨sw1.target, sw1.cases, some false⟩
                  let a := { a with switchx := some sw2 }
                  match ins.data with
                  | .vbytes code =>
                    match (interp fuel (.run (caseNew a code (some false)))).toRun with
                    | (ch, none) =>
                      let thr := match ch.switchx with
                        | some sws => sws.through
                        | none => none
                      let a2 := { mergeShared a ch with
                                  switchx := some ⟨sw2.target, sw2.cases, thr⟩ }
                      match caseAfter a2 thr with
                      | (a3, r) => .ovals a3 r
                    | (ch, some f) => .ovals (mergeShared a ch) (.error f)
                  | _ => .ovals a (.error .typeAssert)
              else
                match caseAfter a sw1.through with
                | (a3, r) => .ovals a3 r
      else if c = 66 then
        -- BLOCK: runs the body in a Block child with no envelope
        let a := a.revert
        match ins.data with
        | .vbytes code =>
          match (interp fuel (.run (blockNew a code))).toRun with
          | (ch, none) => .ovals (mergeShared a ch) (.ok [])
          | (ch, some f) => .ovals (mergeShared a ch) (.error f)
        | _ => .ovals a (.error .typeAssert)
      else if c = 80 then
        -- the expression block: an Expr child is driven by Calculor
        let a := a.revert
        match ins.data with
        | .vbytes code =>
          let ch0 := exprNew a code
          let ch1 := { ch0 with inExpr := ch0.inExpr + 1 }
          match (interp fuel (.calcRun ch1)).toCalc with
          | (ch2, .ok v) =>
            let ch3 := { ch2 with inExpr := ch2.inExpr - 1 }
            .ovals (mergeExpr a ch3) (.ok [.float v])
          | (ch2, .error f) => .ovals (mergeExpr a ch2) (.error f)
        | _ => .ovals a (.error .typeAssert)
      else if c = 81 ∨ c = 82 ∨ c = 83 ∨ c = 84 then
        -- the four operator slots hold the accessPanic placeholder
        .ovals a (.error .accessStop)
      else if c = 111 then
        -- WITHIN: dispatch on the dynamic type of the first argument;
        -- the Bytes branch compares the value against the LOWER bound on
        -- both sides and never consults the upper bound.
        let a := a.revert
        match vs with
        | [x, lo, hi] =>
          match x with
          | .int xv =>
            match lo, hi with
            | .int l, .int h => .ovals a (.ok [.bool (withinOrd xv l h)])
            | _, _ => .ovals a (.error .typeAssert)
          | .float xv =>
            match lo, hi with
            | .float l, .float h => .ovals a (.ok [.bool (withinOrd xv l h)])
            | _, _ => .ovals a (.error .typeAssert)
          | .byte xv =>
            match lo, hi with
            | .byte l, .byte h => .ovals a (.ok [.bool (withinOrd xv l h)])
            | _, _ => .ovals a (.error .typeAssert)
          | .rune xv =>
            match lo, hi with
            | .rune l, .rune h => .ovals a (.ok [.bool (withinOrd xv l h)])
            | _, _ => .ovals a (.error .typeAssert)
          | .str xv =>
            match lo, hi with
            | .str l, .str h => .ovals a (.ok [.bool (withinOrd xv l h)])
            | _, _ => .ovals a (.error .typeAssert)
          | .bytes xb =>
            match lo with
            | .bytes lb =>
              .ovals a (.ok [.bool (decide (bytesCompare lb xb ≤ 0) &&
                                    decide (bytesCompare xb lb < 0))])
            | _ => .ovals a (.error .typeAssert)
          | _ => .ovals a (.error .neverToHere)
        | _ => .ovals a (.error .indexRange)
      else if c = 133 then
        -- VAR: global variable read
        let a := a.revert
        match ins.args with
        | i :: _ => .ovals a (.ok [globalValue a.global i.toNat])
        | [] => .ovals a (.error .indexRange)
      else if c = 134 then
        -- SETVAR: the handler stores the parsed Data field of the
        -- instruction into the globals; SETVAR decodes via parseArg1,
        -- whose Data is nil, and the popped argument vs[0] is discarded.
        let a := a.revert
        match ins.args with
        | i :: _ =>
          let v : Val :=
            match ins.data with
            | .vnone => .nil
            | .vint n => .int n
            | .vbytes bs => .bytes bs
          .ovals { a with global := globalSet a.global i.toNat v } (.ok [])
        | [] => .ovals a (.error .indexRange)
      else
        -- every other opcode is outside this embedding
        .ovals a (.error .unmodelled)
    | .cnext c =>
      -- Calculor.next over the step callback exprNext: at the end of the
      -- expression script it yields (ExprEnd, nil) and reports false;
      -- otherwise the instruction at the cursor is executed through
      -- instCall and its single return value converted.
      if c.a.script.isEnd then .ocn { c with n := -1 } (.ok false)
      else
        let code := Int.ofNat c.a.script.codeN
        match (interp fuel (.icall c.a)).toVals with
        | (a1, .error f) => .ocn { c with a := a1 } (.error f)
        | (a1, .ok l) =>
          match l with
          | [] => .ocn { a := a1, n := code, v := 0 } (.ok true)
          | [v0] =>
            match exprValOf v0 with
            | .ok q => .ocn { a := a1, n := code, v := q } (.ok true)
            | .error f => .ocn { a := a1, n := code, v := 0 } (.error f)
          | _ => .ocn { a := a1, n := code, v := 0 } (.error .exprTooMany)
    | .pbin c prec1 =>
      -- parseBinary: parse a unary operand, then climb precedences
      match (interp fuel (.puna c)).toExp with
      | (c1, .error f) => .oexp c1 (.error f)
      | (c1, .ok lhs) => interp fuel (.pbinFor c1 (precedenceGo c1.n) prec1 lhs)
    | .pbinFor c prec prec1 lhs =>
      if prec < prec1 then .oexp c (.ok lhs)
      else
        match (interp fuel (.pbinWhile c prec prec1 lhs)).toExp with
        | (c1, .error f) => .oexp c1 (.error f)
        | (c1, .ok lhs1) => interp fuel (.pbinFor c1 (prec - 1) prec1 lhs1)
    | .pbinWhile c prec prec1 lhs =>
      if precedenceGo c.n ≠ prec then .oexp c (.ok lhs)
      else
        let op := c.n
        match (interp fuel (.cnext c)).toCn with
        | (c1, .error f) => .oexp c1 (.error f)
        | (c1, .ok false) => .oexp c1 (.error .exprNoOperand)
        | (c1, .ok true) =>
          match (interp fuel (.pbin c1 (prec + 1))).toExp with
          | (c2, .error f) => .oexp c2 (.error f)
          | (c2, .ok rhs) =>
            interp fuel (.pbinWhile c2 prec prec1 (.binary op lhs rhs))
    | .puna c =>
      -- parseUnary: a leading + or - binds a unary operand
      if c.n = 83 ∨ c.n = 84 then
        let op := c.n
        match (interp fuel (.cnext c)).toCn with
        | (c1, .error f) => .oexp c1 (.error f)
        | (c1, .ok false) => .oexp c1 (.error .exprNoOperand)
        | (c1, .ok true) =>
          match (interp fuel (.puna c1)).toExp with
          | (c2, .error f) => .oexp c2 (.error f)
          | (c2, .ok x) => .oexp c2 (.ok (.unary op x))
      else interp fuel (.pprim c)
    | .pprim c =>
      -- parsePrimary: take the current value and advance
      if c.n ≠ -1 then
        let v := c.v
        match (interp fuel (.cnext c)).toCn with
        | (c1, .error f) => .oexp c1 (.error f)
        | (c1, .ok _) => .oexp c1 (.ok (.val v))
      else .oexp c (.error .exprOver)
    | .calcRun a =>
      -- Calculor.Calc: prime the first token, parse, demand ExprEnd,
      -- then evaluate the tree
      match (interp fuel (.cnext ⟨a, 0, 0⟩)).toCn with
      | (c1, .error f) => .ocalc c1.a (.error f)
      | (c1, .ok _) =>
        match (interp fuel (.pbin c1 1)).toExp with
        | (c2, .error f) => .ocalc c2.a (.error f)
        | (c2, .ok e) =>
          if c2.n ≠ -1 then .ocalc c2.a (.error .exprBadEnd)
          else
            match evalE e with
            | .ok v => .ocalc c2.a (.ok v)
            | .error f => .ocalc c2.a (.error f)

/-- ScriptRun: run the top level code; a Leave(EXIT, v) panic yields v,
a Leave(RETURN, _) is the shape error, a normal end yields the zero
value, anything else is the fatal failure. -/
def scriptRunGo (fuel : Nat) (a : Actuator) : Actuator × Except Fault Val :=
  match (interp fuel (.run a)).toRun with
  | (a1, none) => (a1, .ok .nil)
  | (a1, some (.leave k v)) =>
    if k = 1 then (a1, .ok v) else (a1, .error .neverToHere)
  | (a1, some f) => (a1, .error f)

/-- A fresh top-level executor over the given code bytes, as built by
NewActuator (the Ifs pointer is left nil, the counters are zero, the
spaces are empty). -/
def actuatorFor (code : List Nat) : Actuator := { script := ⟨code, 0, 0⟩ }

/-! ## Claim C10: the Bytes branch of WITHIN -/

/-- The boolean computed by the Bytes branch of the WITHIN handler can
never be true: it demands the value to be at least the lower bound and
simultaneously strictly below that same lower bound. -/
theorem bytesWithin_never (x lo : List Nat) :
    (decide (bytesCompare lo x ≤ 0) && decide (bytesCompare x lo < 0)) = false := by
  by_cases h : bytesCompare lo x ≤ 0
  · have h2 : ¬ bytesCompare x lo < 0 := by
      rw [bytesCompare_antisymm lo x]
      omega
    simp [h2]
  · simp [h]

/-- The WITHIN instruction as decoded by instor.Get: a single opcode
byte, no aux arguments and no data. -/
def withinIns : Insted := instorGet [111]

/-- C10: for every invocation of the WITHIN instruction whose three
arguments are Bytes values, the result is false: the Bytes branch of
the handler tests bytes.Compare(lo, x) <= 0 together with
bytes.Compare(x, lo) < 0, so the value would have to be at least the
lower bound and strictly below that same lower bound at once, and the
upper-bound argument is never consulted; no value satisfies this. -/
theorem within_bytes_always_false (fuel : Nat) (a : Actuator)
    (x lo hi : List Nat) :
    interp (fuel + 1) (.iexec a withinIns [.bytes x, .bytes lo, .bytes hi]) =
      .ovals a.revert (.ok [.bool false]) := by
  have hb := bytesWithin_never x lo
  simp [interp, withinIns, instorGet, hb]

/-! ## Claim C3: CASE inside SWITCH

The scenario below is a SWITCH over the body CASE{ Uint8(7) PUSH }
CASE{ Uint8(9) PUSH } with target Int 2 and case values [Int 1, Int 2]:
the target matches the SECOND case value, not the first. -/

set_option maxRecDepth 400000

def c3SwitchCode : List Nat := [59, 12, 60, 3, 4, 7, 26, 60, 3, 4, 9, 26]

def c3Ins : Insted := instorGet c3SwitchCode

def c3A0 : Actuator := actuatorFor c3SwitchCode

/-- Counterexample to C3: executing the SWITCH handler on a switch
whose target Int 2 equals the value of the second CASE (and not the
first) completes with the data stack still empty: the second CASE body
(which would have pushed Int 9, and the first pushes Int 7) was never
executed, because the first CASE consumed its non-matching case value
and immediately raised Break, ending the switch. -/
theorem case_later_match_skipped :
    interp 50 (.iexec c3A0 c3Ins [.int 2, .list [.int 1, .int 2]]) =
      .ovals c3A0 (.ok []) ∧ c3A0.stack = [] :=
  ⟨rfl, rfl⟩

/-- C3 (amended): a CASE consumes the next remaining case value and
runs its body exactly when that value equals the switch target or an
incoming fallthrough is pending; afterwards, unless the shared
fallthrough cell is raised, Break is raised - also when the body did
not run.  Consequently a non-matching CASE without pending fallthrough
ends the whole switch at once: it only consumes its case value and
raises Break, so the body of a later CASE whose value equals the
target is not executed. -/
theorem case_no_match_breaks (fuel : Nat) (a : Actuator) (sw : SwitchX)
    (cv : Val) (rest : List Val) (ins : Insted)
    (hch : a.changed = false)
    (hsw : a.switchx = some sw)
    (hcv : sw.cases = cv :: rest)
    (hth : sw.through = some false)
    (hne : valEqGo cv sw.target = .ok false)
    (hc : ins.code = 60) :
    interp (fuel + 1) (.iexec a ins []) =
      .ovals { a with switchx := some ⟨sw.target, rest, some false⟩ }
        (.error (.cease 1)) := by
  simp [interp, hc, Actuator.revert, hch, hsw, hcv, hth, hne, caseAfter]

/-- Witness for the amended C3 at a concrete input: a CASE over case
value Int 1 with target Int 2 and no pending fallthrough consumes the
case value and raises Break. -/
theorem case_no_match_breaks_witness :
    interp 1 (.iexec { switchx := some ⟨.int 2, [.int 1, .int 2], some false⟩ }
        (instorGet [60, 3, 4, 7, 26]) []) =
      .ovals { switchx := some ⟨.int 2, [.int 2], some false⟩ }
        (.error (.cease 1)) :=
  case_no_match_breaks 0 _ ⟨.int 2, [.int 1, .int 2], some false⟩
    (.int 1) [.int 2] _ rfl rfl rfl rfl rfl rfl

/-! ## Claims C4, C5, C6: the end-to-end scenarios

Each scenario is run on the embedding exactly as the source executes
it.  instCall advances only a local copy of the Script struct (Go
value assignment), so codeRun re-executes the instruction at offset 0
until a fault unwinds the run; these theorems record the actual
outcome at each scenario input. -/

/-- Scenario bytes of C4: TRUE IF{ Uint8(7) PUSH } ELSE{ Uint8(9) PUSH }. -/
def c4Code : List Nat := [1, 57, 3, 4, 7, 26, 58, 3, 4, 9, 26]

/-- C4: the conditional scenario does NOT terminate normally with
stack [Int 7].  Because the script cursor never advances (instCall
advances a copy of the Script struct), the leading TRUE is re-executed
until the 257th push overflows the data stack, and the run fails
fatally; the IF handler is never even reached (and would dereference
the never-allocated Ifs pointer if it were). -/
theorem conditional_scenario_fatal :
    (scriptRunGo 900 (actuatorFor c4Code)).2 = .error .stackOver := rfl

/-- Scenario bytes of C5: BLOCK{ Uint8(1) EXIT }, and the variant with
RETURN (opcode 56) in place of EXIT (opcode 55). -/
def c5CodeExit : List Nat := [66, 3, 4, 1, 55]

def c5CodeRet : List Nat := [66, 3, 4, 1, 56]

/-- C5: ScriptRun on BLOCK{ Uint8(1) EXIT } does NOT yield Int 1, and
the RETURN variant does not fail with the Return-escape shape error:
in both variants the block child re-executes Uint8(1) (the cursor
never advances) until the 257th push overflows the data stack, so both
runs end in the same fatal stack-overflow failure before EXIT or
RETURN is ever reached. -/
theorem block_exit_scenario_fatal :
    (scriptRunGo 900 (actuatorFor c5CodeExit)).2 = .error .stackOver ∧
    (scriptRunGo 900 (actuatorFor c5CodeRet)).2 = .error .stackOver :=
  ⟨rfl, rfl⟩

/-- Scenario bytes of C6: ( Uint8(5) Uint8(3) + Uint8(2) * ). -/
def c6Code : List Nat := [80, 8, 4, 5, 4, 3, 83, 4, 2, 81]

/-- C6: the expression scenario does NOT leave Float 16 on the stack.
The expression child cursor never advances, so the step callback keeps
yielding the first Uint8(5); the parser reads one primary operand,
still sees code 4 instead of the end marker, and Calculor.Calc raises
the fatal unknown-syntax error, which ScriptRun reports as a failure.
Independently, the operator slots of the instruction table hold the
accessPanic placeholder, so a dispatched + or * is itself fatal. -/
theorem expression_scenario_fatal :
    (scriptRunGo 100 (actuatorFor c6Code)).2 = .error .exprBadEnd := rfl

/-! ## Claim C7: SETVAR / VAR -/

/-- Executor about to run SETVAR(0) with the value Int 7 on the data
stack as its argument. -/
def c7A0 : Actuator := { script := ⟨[134, 0], 0, 0⟩, stack := [.int 7] }

/-- The executor state after the SETVAR(0) instruction executed once
through instCall (the argument Int 7 was popped). -/
def c7After : Actuator := ((interp 10 (.icall c7A0)).toVals).1

/-- C7: SETVAR does not store its argument.  Executing SETVAR(0) with
argument Int 7 consumes the argument but stores the instruction Data
field - which is nil for SETVAR, since it decodes via parseArg1 - so
the global slot holds nil and a following VAR(0) returns nil, not the
stored value Int 7. -/
theorem setvar_discards_argument :
    ((interp 10 (.icall c7A0)).toVals).2 = .ok [] ∧
    c7After.stack = [] ∧
    globalValue c7After.global 0 = .nil ∧
    ((interp 10 (.icall { c7After with script := ⟨[133, 0], 0, 0⟩ })).toVals).2 =
      .ok [.nil] :=
  ⟨rfl, rfl, rfl, rfl⟩

/-! ## Claim C8: the pattern-match loop (inst/model/model.go, Check)

Check walks a source and a model byte stream with two cursors; each
iteration consults the opcode-indexed modeler table.  The per-opcode
modelers and the capture State are abstracted: step takes the State
and the two remaining suffixes and returns the updated State, the two
advances and the ok flag, exactly the Modeler signature; setLast is
State.SetLast.  The loop below is the literal Check loop over cursor
offsets i (source) and j (model), with fuel for the embedding only. -/

def checkGo {σ : Type} (step : σ → List Nat → List Nat → σ × Nat × Nat × Bool)
    (setLast : σ → List Nat → σ) (s m : List Nat) :
    Nat → σ → Nat → Nat → Option (σ × Bool)
  | 0, _, _, _ => none
  | fuel + 1, t, i, j =>
    if m.length ≤ j then some (t, decide (s.length ≤ i))
    else
      let r := step t (s.drop i) (m.drop j)
      if r.2.2.2 = false ∨ s.length ≤ i + r.2.1 then
        some (r.1, r.2.2.2 && decide (m.length ≤ j + r.2.2.1))
      else
        checkGo step setLast s m fuel (setLast r.1 (s.drop i)) (i + r.2.1)
          (j + r.2.2.1)

/-- An all-ok matching trace from position (i, j): every modeler step
reports ok, the model is fully consumed and the source is exhausted
exactly - either both streams are already consumed, or an ok step
consumes the remainder of both at once, or an ok step advances
strictly inside the source and the rest matches. -/
inductive Succeeds {σ : Type}
    (step : σ → List Nat → List Nat → σ × Nat × Nat × Bool)
    (setLast : σ → List Nat → σ) (s m : List Nat) : σ → Nat → Nat → Prop
  | done (t : σ) (i j : Nat) (hs : s.length ≤ i) (hm : m.length ≤ j) :
      Succeeds step setLast s m t i j
  | last (t : σ) (i j : Nat) (t1 : σ) (n1 n2 : Nat)
      (hj : j < m.length)
      (hstep : step t (s.drop i) (m.drop j) = (t1, n1, n2, true))
      (hs : s.length ≤ i + n1) (hm : m.length ≤ j + n2) :
      Succeeds step setLast s m t i j
  | more (t : σ) (i j : Nat) (t1 : σ) (n1 n2 : Nat)
      (hj : j < m.length)
      (hstep : step t (s.drop i) (m.drop j) = (t1, n1, n2, true))
      (hs : i + n1 < s.length)
      (hrest : Succeeds step setLast s m (setLast t1 (s.drop i)) (i + n1)
        (j + n2)) :
      Succeeds step setLast s m t i j

/-- C8: the match succeeds if and only if every modeler step reports
ok, the model is fully consumed and the source is exhausted exactly.
In particular a model that ends while source bytes remain fails (the
final return is the source-End check) and a source that ends while
model instructions remain fails (the in-loop return demands the model
be consumed at that very step). -/
theorem check_success_iff {σ : Type}
    (step : σ → List Nat → List Nat → σ × Nat × Nat × Bool)
    (setLast : σ → List Nat → σ) (s m : List Nat) (t : σ) (i j : Nat) :
    (∃ fuel t1, checkGo step setLast s m fuel t i j = some (t1, true)) ↔
      Succeeds step setLast s m t i j := by
  constructor
  · rintro ⟨fuel, t1, hrun⟩
    induction fuel generalizing t i j with
    | zero => simp [checkGo] at hrun
    | succ fuel ih =>
      rw [checkGo] at hrun
      by_cases hm : m.length ≤ j
      · rw [if_pos hm] at hrun
        injection hrun with hrun
        injection hrun with _ hok
        exact .done t i j (of_decide_eq_true hok) hm
      · rw [if_neg hm] at hrun
        rcases hr : step t (s.drop i) (m.drop j) with ⟨t2, n1, n2, ok⟩
        rw [hr] at hrun
        simp only [] at hrun
        by_cases hexit : ok = false ∨ s.length ≤ i + n1
        · rw [if_pos hexit] at hrun
          injection hrun with hrun
          injection hrun with _ hok
          rcases Bool.and_eq_true_iff.1 hok with ⟨hok1, hok2⟩
          subst hok1
          have hs : s.length ≤ i + n1 := by
            rcases hexit with h | h
            · cases h
            · exact h
          exact .last t i j t2 n1 n2 (Nat.lt_of_not_le hm) hr hs
            (of_decide_eq_true hok2)
        · rw [if_neg hexit] at hrun
          push_neg at hexit
          rcases hexit with ⟨hok, hs⟩
          have hok1 : ok = true := by
            cases ok
            · exact absurd rfl hok
            · rfl
          subst hok1
          exact .more t i j t2 n1 n2 (Nat.lt_of_not_le hm) hr hs
            (ih _ _ _ hrun)
  · intro hsucc
    induction hsucc with
    | done t i j hs hm =>
      exact ⟨1, t, by simp [checkGo, hm, hs]⟩
    | last t i j t1 n1 n2 hj hstep hs hm =>
      refine ⟨1, t1, ?_⟩
      rw [checkGo, if_neg (Nat.not_le.2 hj), hstep]
      simp [hs, hm]
    | more t i j t1 n1 n2 hj hstep hs hrest ih =>
      obtain ⟨fuel, t2, hr⟩ := ih
      refine ⟨fuel + 1, t2, ?_⟩
      rw [checkGo, if_neg (Nat.not_le.2 hj), hstep]
      simp only []
      rw [if_neg]
      · exact hr
      · push_neg
        exact ⟨by decide, hs⟩

/-! ## Claim C9: the script pool (xpool/pool.go and cbase.KeyID)

The pool is the process-wide sync.Map from the script key to the
script bytes.  Get builds its key with cbase.KeyID, which returns a
BYTE SLICE; pool.Load and pool.Store receive it as an interface key.
A Go map access hashes its key even on an empty map, and a slice is an
unhashable dynamic type, so every Load and every Store with this key
panics at run time (hash of unhashable type) - Get can never return a
cached entry nor complete a store.  The embedding models the key with
its dynamic type and the hash step of the map access, so that fault is
preserved.  (The external fetch of the miss path is additionally a
stub in the source - the body holds only the placeholder comment
naming the blockqs hook - and stays an abstract parameter.) -/

/-- Big-endian bytes of uint32(x). -/
def be4 (x : Nat) : List Nat :=
  let v := x % 2 ^ 32
  [v / 2 ^ 24 % 256, v / 2 ^ 16 % 256, v / 2 ^ 8 % 256, v % 256]

/-- Big-endian bytes of uint16(x). -/
def be2 (x : Nat) : List Nat :=
  let v := x % 2 ^ 16
  [v / 2 ^ 8 % 256, v % 256]

/-- cbase.KeyID: the 10-byte script key - 4-byte block height, 4-byte
transaction index, 2-byte script index, all big-endian - returned as a
byte slice. -/
def keyID (h n i : Nat) : List Nat := be4 h ++ be4 n ++ be2 i

/-- A map key as Go sees it: an interface value whose dynamic type
decides hashability.  The comment in pool.go documents the key as a
string; KeyID in fact returns a byte slice, which is unhashable. -/
inductive MapKey where
  | str (s : String)
  | bytes (bs : List Nat)

/-- Modelled from the spec: the external byte fetcher consulted by
pool.Get on a cache miss is missing from the repository - the body of
Get holds only the placeholder comment naming the blockqs hook - and
the specification states that Get fetches externally on a miss and
stores the result, so the fetcher is an abstract function from the
key triple to the script bytes. -/
def FetchFun : Type := Nat → Nat → Nat → List Nat

/-- sync.Map.Load: the underlying map[any]*entry access hashes the
interface key first - even when the map is empty - and a key of a
slice dynamic type is unhashable, a run-time panic. -/
def syncMapLoad (pool : List (MapKey × List Nat)) (k : MapKey) :
    Except Fault (Option (List Nat)) :=
  match k with
  | .bytes _ => .error .unhashableKey
  | .str s =>
    .ok ((pool.find? (fun p =>
      match p.1 with
      | .str t => t == s
      | .bytes _ => false)).map (fun p => p.2))

/-- sync.Map.Store: hashes the interface key exactly like Load. -/
def syncMapStore (pool : List (MapKey × List Nat)) (k : MapKey)
    (v : List Nat) : Except Fault (List (MapKey × List Nat)) :=
  match k with
  | .bytes _ => .error .unhashableKey
  | .str _ => .ok ((k, v) :: pool)

/-- xpool.Get: build the key from (h, n, i) via KeyID, Load it from the
pool and return a hit; on a miss fetch externally, Store under the key
and return the fetched bytes.  Result on success: (returned bytes,
updated pool).  The key is the byte slice KeyID returns, so both map
operations fault. -/
def poolGet (fetch : FetchFun) (pool : List (MapKey × List Nat))
    (h n i : Nat) : Except Fault (List Nat × List (MapKey × List Nat)) :=
  let k : MapKey := .bytes (keyID h n i)
  match syncMapLoad pool k with
  | .error f => .error f
  | .ok (some v) => .ok (v, pool)
  | .ok none =>
    let code := fetch h n i
    match syncMapStore pool k code with
    | .error f => .error f
    | .ok pool1 => .ok (code, pool1)

/-- C9: Get never returns at all - for every fetcher, every pool state
and every key (h, n, i), the very first pool.Load hashes the byte
slice key that cbase.KeyID produced and panics on its unhashable
dynamic type, so Get neither returns a cached entry nor fetches,
stores and returns; the caching contract of the claim is unreachable
in this code. -/
theorem pool_get_always_panics (fetch : FetchFun)
    (pool : List (MapKey × List Nat)) (h n i : Nat) :
    poolGet fetch pool h n i = .error .unhashableKey :=
  rfl

end Suite
